import Mathlib

/-!
Verification development for the cnapp-reporter aggregation logic.

The definitions below are shallow embeddings of the TypeScript source:
* the vulnerability package-grouping and sorting of `VulnerabilitiesPage`
  (`frontend/src/components/StatusBadge.tsx`, `sortedPackages` and the
  related filters and counters),
* the identity staleness filter and last-used display of `IdentitiesPage`,
* the CSV utilities `escapeCsvField` and `downloadCsv`
  (`frontend/src/components/CsvDownload.tsx`).

JavaScript `Map` objects (insertion ordered, keyed by package name) are
modelled as association lists in first-encounter order; JavaScript `Set`
objects are modelled as duplicate-free lists in insertion order (`setAdd`);
JavaScript string truthiness (`if (x)`) for `string | null` values is
"present and non-empty".  The comparator passed to `Array.prototype.sort`
is embedded faithfully (`pkgCompare`); because that comparator is not
consistent (it returns `1` for both argument orders of two distinct
non-Critical severities), ECMAScript leaves the sort's result order
implementation-defined and guarantees only that the result is a
permutation of the input, so the sort itself stays abstract:
`sortedPackages` takes the engine's sort as a parameter and no theorem
relies on any one engine's order.
-/

/-- One row of `VulnPageData.items` (`frontend/src/types/index.ts`,
`VulnDetailEntry`): nullable columns are `Option String`. -/
structure VulnItem where
  instance_name : String
  vuln_id : String
  severity : String
  package : Option String
  version : Option String
  fix_version : Option String
  hostname : Option String
  external_ip : Option String
  instance_id_tag : Option String
  status : String
deriving DecidableEq

/-- JavaScript `Set.add` on an insertion-ordered set of strings: append the
element iff it is not already present. -/
def setAdd (l : List String) (s : String) : List String :=
  if s ∈ l then l else l ++ [s]

/-- Conditional add used for the truthiness-guarded `Set.add` calls
(`if (item.version) existing.versions.add(item.version)`):
`null` and the empty string are skipped. -/
def addTruthy (l : List String) (o : Option String) : List String :=
  match o with
  | none => l
  | some s => if s = "" then l else setAdd l s

/-- The value of a truthiness test on a `string | null` field, as the
optional string it contributes: `none` for `null` and for `""`. -/
def truthyStr (o : Option String) : Option String :=
  match o with
  | none => none
  | some s => if s = "" then none else some s

/-- One entry of the `packageGroups` map in `sortedPackages`
(`VulnerabilitiesPage`): the JS `Set` fields are insertion-ordered
duplicate-free lists, so `.size` is `.length`. -/
structure PkgGroup where
  package : String
  severity : String
  versions : List String
  fix_versions : List String
  cves : List String
  hosts : List String
  instances : List String
  count : Nat
deriving DecidableEq

/-- The grouping key `item.package ?? 'unknown'` (JS `??` only replaces
`null`/`undefined`, so an empty-string package is kept as is). -/
def pkgOf (i : VulnItem) : String := i.package.getD "unknown"

/-- The group created on first encounter of a package
(the `else` branch of the grouping loop). -/
def newGroup (i : VulnItem) : PkgGroup :=
  { package := pkgOf i
    severity := i.severity
    versions := addTruthy [] i.version
    fix_versions := addTruthy [] i.fix_version
    cves := [i.vuln_id]
    hosts := addTruthy [] i.hostname
    instances := [i.instance_name]
    count := 1 }

/-- The in-place update of an existing group (the `if (existing)` branch):
count incremented, set fields extended, severity overwritten with
`'Critical'` only when the new member is Critical. -/
def updateGroup (g : PkgGroup) (i : VulnItem) : PkgGroup :=
  { g with
    count := g.count + 1
    versions := addTruthy g.versions i.version
    fix_versions := addTruthy g.fix_versions i.fix_version
    cves := setAdd g.cves i.vuln_id
    hosts := addTruthy g.hosts i.hostname
    instances := setAdd g.instances i.instance_name
    severity := if i.severity = "Critical" then "Critical" else g.severity }

/-- One step of the grouping loop: `packageGroups.get(pkg)` followed by
either the update or `packageGroups.set(pkg, …)`; the association list is
in `Map` insertion order. -/
def addItem : List PkgGroup → VulnItem → List PkgGroup
  | [], i => [newGroup i]
  | g :: gs, i =>
    if g.package = pkgOf i then updateGroup g i :: gs else g :: addItem gs i

/-- The grouping loop `for (const item of filtered) …` of `sortedPackages`,
producing `[...packageGroups.values()]` in first-encounter order. -/
def packageGroups (l : List VulnItem) : List PkgGroup := l.foldl addItem []

/-- `Map.get` on the association-list model of `packageGroups`. -/
def findGroup : List PkgGroup → String → Option PkgGroup
  | [], _ => none
  | g :: gs, p => if g.package = p then some g else findGroup gs p

/-- The sort comparator of `sortedPackages`:
`if (a.severity !== b.severity) return a.severity === 'Critical' ? -1 : 1;
return b.hosts.size - a.hosts.size`. -/
def pkgCompare (a b : PkgGroup) : Int :=
  if a.severity ≠ b.severity then (if a.severity = "Critical" then -1 else 1)
  else (b.hosts.length : Int) - (a.hosts.length : Int)

/-- The full `sortedPackages` computation of `VulnerabilitiesPage` applied
to an already-filtered list of findings:
`[...packageGroups.values()].sort(cmp)` with the engine's
`Array.prototype.sort` abstracted as `sortImpl`.  `pkgCompare` is not a
consistent comparator, so ECMAScript makes the result order
implementation-defined and guarantees only that the result is a
permutation of the input; committing to any one concrete order would
misrepresent the program, hence the sort stays a parameter and theorems
assume of it only the permutation guarantee. -/
def sortedPackages (sortImpl : List PkgGroup → List PkgGroup)
    (l : List VulnItem) : List PkgGroup :=
  sortImpl (packageGroups l)

/-- Truthiness of `item.external_ip` as used by the `exposedCritical` /
`exposedHosts` counters (`i.external_ip` in a boolean position). -/
def isExposed (i : VulnItem) : Bool :=
  match i.external_ip with
  | none => false
  | some s => if s = "" then false else true

/-- The exposure clause of the `filtered` predicate:
`!internetExposed || (item.external_ip != null && item.external_ip !== '')`. -/
def matchesExposed (internetExposed : Bool) (i : VulnItem) : Bool :=
  !internetExposed ||
    (decide (i.external_ip ≠ none) && decide (i.external_ip ≠ some ""))

/-- The identity fields used by the staleness filter and the last-used
column of `IdentitiesPage` (the backing `IdentityPageData` item type). -/
structure IdentityItem where
  instance_name : String
  principal_id : String
  name : String
  risk_severity : String
  risks : List String
  last_used : Option String
  days_unused : Option Int
  entitlements_total : Nat
  entitlements_unused : Nat
deriving DecidableEq

/-- The unused clause of the `filtered` predicate in `IdentitiesPage`:
`!unusedOnly || (item.days_unused != null && item.days_unused >= 180)`. -/
def matchesUnused (unusedOnly : Bool) (it : IdentityItem) : Bool :=
  !unusedOnly ||
    (match it.days_unused with
     | some d => decide (180 ≤ d)
     | none => false)

/-- What the Last Used table cell shows (rows 308-318 of the page): a
days-ago value with its `>= 180` (red/stale) and `>= 90` (orange) flags,
a formatted date, or the literal "never". -/
inductive LastUsedCell where
  | daysAgo (d : Int) (stale : Bool) (aging : Bool)
  | date (s : String)
  | never
deriving DecidableEq

/-- The Last Used cell logic:
`item.days_unused != null ? … : item.last_used ? date : 'never'`. -/
def lastUsedCell (it : IdentityItem) : LastUsedCell :=
  match it.days_unused with
  | some d => LastUsedCell.daysAgo d (decide (180 ≤ d)) (decide (90 ≤ d))
  | none =>
    match it.last_used with
    | none => LastUsedCell.never
    | some s => if s = "" then LastUsedCell.never else LastUsedCell.date s

/-- Decidable single-character containment on a string, the model of the
JavaScript `str.includes(c)` calls with one-character needles. -/
def containsChar (s : String) (c : Char) : Bool := s.data.contains c

/-- The quoting trigger of `escapeCsvField`:
`str.includes(',') || str.includes('"') || str.includes('\n')`. -/
def needsQuoting (s : String) : Bool :=
  containsChar s ',' || containsChar s '"' || containsChar s '\n'

/-- The global replacement `str.replace(/"/g, '""')`: every double-quote
character is doubled, every other character kept. -/
def doubleQuotes (s : String) : String :=
  ⟨s.data.foldr (fun c acc => if c = '"' then '"' :: '"' :: acc else c :: acc) []⟩

/-- `escapeCsvField` of `CsvDownload.tsx`.  The `unknown` input is modelled
as `Option String`: `none` for `null`/`undefined` (the `value == null`
branch) and `some s` for any other value already taken through
`String(value)`. -/
def escapeCsvField (value : Option String) : String :=
  match value with
  | none => ""
  | some str =>
    if needsQuoting str then "\"" ++ doubleQuotes str ++ "\"" else str

/-- A column specification `{ key, label }` of `downloadCsv`. -/
structure CsvColumn where
  key : String
  label : String
deriving DecidableEq

/-- A data row `Record<string, unknown>`: an insertion-ordered association
list from keys to stringified-or-null values. -/
abbrev CsvRow := List (String × Option String)

/-- Property access `row[c.key]`: the first binding for the key, `none`
(i.e. `undefined`) when the key is absent. -/
def rowGet (row : CsvRow) (k : String) : Option String :=
  match row.find? (fun kv => decide (kv.1 = k)) with
  | some kv => kv.2
  | none => none

/-- The default column list `Object.keys(data[0]).map(k => ({key: k,
label: k}))`. -/
def defaultColumns (row : CsvRow) : List CsvColumn :=
  row.map (fun kv => { key := kv.1, label := kv.1 })

/-- The header record `cols.map(c => escapeCsvField(c.label)).join(',')`. -/
def csvHeader (cols : List CsvColumn) : String :=
  String.intercalate "," (cols.map (fun c => escapeCsvField (some c.label)))

/-- One data record
`cols.map(c => escapeCsvField(row[c.key])).join(',')`. -/
def csvRecord (cols : List CsvColumn) (row : CsvRow) : String :=
  String.intercalate "," (cols.map (fun c => escapeCsvField (rowGet row c.key)))

/-- The text-producing part of `downloadCsv`: `none` models the early
`if (data.length === 0) return` (no blob, no download); otherwise the
produced CSV text `[header, ...rows].join('\n')`.  The DOM side effects
(blob creation, link click) are outside the embedding. -/
def downloadCsv (data : List CsvRow) (columns : Option (List CsvColumn)) :
    Option String :=
  match data with
  | [] => none
  | d :: _ =>
    let cols := columns.getD (defaultColumns d)
    some (String.intercalate "\n" (csvHeader cols :: data.map (csvRecord cols)))

/-- Modelled from the spec: the error type of the Credential Vault
(section 4.1); the backend implementation of the vault is not among the
sources, only its contract. -/
inductive CryptoError where
  | authFailure
deriving DecidableEq

/-- Modelled from the spec: an authenticated ciphertext, a byte body plus
an authentication tag.  The tag of an ideal AEAD binds the key, the nonce
and the ciphertext body; it is modelled symbolically as that triple. -/
structure EncryptedSecret where
  body : List Nat
  tag : List Nat × Nat × List Nat
deriving DecidableEq

/-- Modelled from the spec: the keystream of the stream cipher underlying
the vault's AEAD, one byte per position, a function of key and nonce. -/
def keystream (key : List Nat) (nonce : Nat) (n : Nat) : List Nat :=
  (List.range n).map (fun i => (key.foldl (· + ·) 0 + nonce + i) % 256)

/-- Modelled from the spec: `encrypt(secret, key)` with the freshly
generated per-call nonce passed explicitly (section 4.1): the body is the
secret XORed with the keystream, the tag binds key, nonce and body. -/
def encrypt (s : List Nat) (key : List Nat) (nonce : Nat) : EncryptedSecret :=
  let body := List.zipWith (fun a b => a ^^^ b) s (keystream key nonce s.length)
  { body := body, tag := (key, nonce, body) }

/-- Modelled from the spec: `decrypt(ciphertext, nonce, key)` verifies the
authentication tag and fails with `CryptoError` on any mismatch, never
returning unauthenticated plaintext. -/
def decrypt (ct : EncryptedSecret) (nonce : Nat) (key : List Nat) :
    Except CryptoError (List Nat) :=
  if ct.tag = (key, nonce, ct.body) then
    Except.ok (List.zipWith (fun a b => a ^^^ b) ct.body
      (keystream key nonce ct.body.length))
  else Except.error CryptoError.authFailure

/-- Modelled from the spec: the per-identity unused-entitlement percentage
`unused/total` entitlements, 0 when the total is 0 (section 4.6); the
aggregator that computes `entitlements_unused_pct` is not among the
sources. -/
def entitlementsUnusedPct (unused total : Nat) : ℚ :=
  if total = 0 then 0 else (unused : ℚ) * 100 / (total : ℚ)

/-- Rank of a severity in the spec's ordered enum
Critical > High > Medium > Low > Info. -/
def sevRank (s : String) : Nat :=
  if s = "Critical" then 4
  else if s = "High" then 3
  else if s = "Medium" then 2
  else if s = "Low" then 1
  else 0

/-- Lexicographic order on character lists, used to state the spec's
"package name ascending" tiebreak. -/
def charListLe : List Char → List Char → Bool
  | [], _ => true
  | _ :: _, [] => false
  | a :: as, b :: bs => if a = b then charListLe as bs else decide (a < b)

/-- The ordering claimed by the spec for the package summary: severity
descending, then affected-host-count descending, ties broken by package
name ascending.  This definition follows the spec's words, to be compared
with the behaviour of the code. -/
def specPkgLe (a b : PkgGroup) : Bool :=
  decide (sevRank b.severity < sevRank a.severity) ||
    (decide (sevRank a.severity = sevRank b.severity) &&
      (decide (b.hosts.length < a.hosts.length) ||
        (decide (a.hosts.length = b.hosts.length) &&
          charListLe a.package.data b.package.data)))

/-- Adjacent-pairs sortedness test for a boolean order. -/
def sortedByB (le : PkgGroup → PkgGroup → Bool) : List PkgGroup → Bool
  | [] => true
  | [_] => true
  | a :: b :: rest => le a b && sortedByB le (b :: rest)

/-- The worst (maximum-rank) severity among a list of findings, following
the spec's words "the maximum (worst) severity among its members". -/
def worstSevRank (ms : List VulnItem) : Nat :=
  ms.foldl (fun acc i => max acc (sevRank i.severity)) 0

/-- A High-severity finding on package `liba`, first in encounter order. -/
def cx1a : VulnItem :=
  { instance_name := "tenant1", vuln_id := "CVE-2024-2001", severity := "High"
    package := some "liba", version := some "1.0", fix_version := none
    hostname := some "h1", external_ip := none, instance_id_tag := none
    status := "Active" }

/-- A Medium-severity finding on package `libb`, second in encounter
order. -/
def cx1b : VulnItem :=
  { instance_name := "tenant1", vuln_id := "CVE-2024-2002", severity := "Medium"
    package := some "libb", version := some "2.0", fix_version := none
    hostname := some "h2", external_ip := none, instance_id_tag := none
    status := "Active" }

/-- A Low-severity finding on package `openssl`, first in encounter
order. -/
def cx2a : VulnItem :=
  { instance_name := "tenant1", vuln_id := "CVE-2024-0001", severity := "Low"
    package := some "openssl", version := some "1.0.2", fix_version := none
    hostname := some "h1", external_ip := none, instance_id_tag := none
    status := "Active" }

/-- A High-severity finding on the same package `openssl`, second in
encounter order. -/
def cx2b : VulnItem :=
  { instance_name := "tenant1", vuln_id := "CVE-2024-0002", severity := "High"
    package := some "openssl", version := some "1.0.2", fix_version := none
    hostname := some "h2", external_ip := none, instance_id_tag := none
    status := "Active" }

/-- An internet-exposed Critical finding (non-empty external IP). -/
def cx3a : VulnItem :=
  { instance_name := "tenant1", vuln_id := "CVE-2024-3001", severity := "Critical"
    package := some "nginx", version := some "1.24", fix_version := some "1.25"
    hostname := some "web-1", external_ip := some "1.2.3.4"
    instance_id_tag := some "i-0abc", status := "Active" }

/-- An identity with no last-used timestamp and hence no days-unused
value. -/
def cx4 : IdentityItem :=
  { instance_name := "tenant1", principal_id := "AIDA0001", name := "svc-batch"
    risk_severity := "INFO", risks := [], last_used := none, days_unused := none
    entitlements_total := 0, entitlements_unused := 0 }

/-- An identity last used 200 days ago. -/
def w4 : IdentityItem :=
  { instance_name := "tenant1", principal_id := "AIDA0002", name := "ops-admin"
    risk_severity := "HIGH", risks := ["ALLOWS_FULL_ADMIN"]
    last_used := some "2024-03-01T00:00:00Z", days_unused := some 200
    entitlements_total := 10, entitlements_unused := 9 }

/-- The spec's worked example, exposed record: `CVE-2024-1111` on
`openssl`, `external_ip="1.2.3.4"`, host `web-1`. -/
def w6a : VulnItem :=
  { instance_name := "tenant1", vuln_id := "CVE-2024-1111", severity := "Critical"
    package := some "openssl", version := some "3.0.1", fix_version := some "3.0.9"
    hostname := some "web-1", external_ip := some "1.2.3.4"
    instance_id_tag := none, status := "Active" }

/-- The spec's worked example, internal record: the same CVE and package,
`external_ip=null`, host `db-1`. -/
def w6b : VulnItem :=
  { instance_name := "tenant1", vuln_id := "CVE-2024-1111", severity := "Critical"
    package := some "openssl", version := some "3.0.1", fix_version := some "3.0.9"
    hostname := some "db-1", external_ip := none
    instance_id_tag := none, status := "Active" }

/-- The group the loop builds for a fixed package from the sub-list of its
members in encounter order: none when there are no members, otherwise the
first member's `newGroup` updated by the remaining members. -/
def groupFor : List VulnItem → Option PkgGroup
  | [] => none
  | m :: rest => some (rest.foldl updateGroup (newGroup m))

/-- The members of one package group: the findings whose grouping key is
the given package name, in encounter order. -/
def membersOf (l : List VulnItem) (p : String) : List VulnItem :=
  l.filter (fun i => decide (pkgOf i = p))

/-- C2: counterexample evidence for the group-severity claim.  On the input
`[cx2a, cx2b]` (a Low then a High finding for the same package) the
grouping reports severity `"Low"`, the first member's severity, although
the worst member severity is `"High"`: the code only upgrades a group's
severity when a member is `"Critical"`, contradicting the spec and the
page's own "Worst Severity" CSV header. -/
theorem groupSeverity_not_worst :
    (packageGroups [cx2a, cx2b]).map PkgGroup.severity = ["Low"] ∧
    worstSevRank [cx2a, cx2b] = sevRank "High" ∧
    sevRank "Low" < sevRank "High" :=
  ⟨by decide, by decide, by decide⟩

/-- C3: a finding is classified internet exposed iff its external IP is
present and non-empty; the `filtered` clause with the toggle on agrees
with the truthiness test used by the summary counters, the clause with the
toggle off accepts everything, and the classification depends on no
attribute other than `external_ip`. -/
theorem exposure_flag_spec (i : VulnItem) :
    (isExposed i = true ↔ ∃ s, i.external_ip = some s ∧ s ≠ "") ∧
    matchesExposed true i = isExposed i ∧
    matchesExposed false i = true ∧
    (∀ j : VulnItem, j.external_ip = i.external_ip → isExposed j = isExposed i) := by
  refine ⟨?_, ?_, ?_, ?_⟩
  · cases h : i.external_ip with
    | none => simp [isExposed, h]
    | some s => by_cases hs : s = "" <;> simp [isExposed, h, hs]
  · cases h : i.external_ip with
    | none => simp [matchesExposed, isExposed, h]
    | some s => by_cases hs : s = "" <;> simp [matchesExposed, isExposed, h, hs]
  · simp [matchesExposed]
  · intro j hj
    unfold isExposed
    rw [hj]

/-- Witness for C3 at the concrete exposed finding `cx3a`. -/
theorem exposure_flag_spec_witness :
    isExposed cx3a = true ∧ matchesExposed true cx3a = isExposed cx3a :=
  ⟨(exposure_flag_spec cx3a).1.mpr ⟨"1.2.3.4", rfl, by decide⟩,
    (exposure_flag_spec cx3a).2.1⟩

/-- C4: counterexample to the claim that an identity with no last-used
timestamp is included in the stale/unused classification: `cx4` has
`last_used = null`, the Unused-180d filter rejects it
(`days_unused != null` fails), and the page reports it as "never". -/
theorem identity_noLastUsed_not_stale :
    cx4.last_used = none ∧ matchesUnused true cx4 = false ∧
    lastUsedCell cx4 = LastUsedCell.never :=
  ⟨rfl, rfl, rfl⟩

/-- C4 (amended): staleness is decided solely by `days_unused` with the
fixed 180-day cutoff — an identity passes the unused filter iff
`days_unused` is present and at least 180; the Last Used cell flags
`days_unused ≥ 180` red (stale) and `≥ 90` orange; an identity with
neither `days_unused` nor `last_used` is reported "never" (never used) and
is not part of the stale classification. -/
theorem identity_staleness_spec (it : IdentityItem) :
    (matchesUnused true it = true ↔ ∃ d, it.days_unused = some d ∧ 180 ≤ d) ∧
    matchesUnused false it = true ∧
    (∀ d, it.days_unused = some d →
      lastUsedCell it =
        LastUsedCell.daysAgo d (decide (180 ≤ d)) (decide (90 ≤ d))) ∧
    (it.days_unused = none → it.last_used = none →
      lastUsedCell it = LastUsedCell.never) := by
  refine ⟨?_, ?_, ?_, ?_⟩
  · cases h : it.days_unused with
    | none => simp [matchesUnused, h]
    | some d => simp [matchesUnused, h]
  · simp [matchesUnused]
  · intro d hd
    simp [lastUsedCell, hd]
  · intro h1 h2
    simp [lastUsedCell, h1, h2]

/-- Witness for C4 (amended) at the identity `w4`, 200 days unused. -/
theorem identity_staleness_spec_witness :
    matchesUnused true w4 = true ∧
    lastUsedCell w4 = LastUsedCell.daysAgo 200 true true := by
  have h := identity_staleness_spec w4
  refine ⟨h.1.mpr ⟨200, rfl, by decide⟩, ?_⟩
  have h2 := h.2.2.1 200 rfl
  simpa using h2

/-- C5: the grouping computation is deterministic — grouping is a pure
function of the input finding list and, for whatever fixed sort
implementation the engine uses, so is the whole pipeline: two runs on the
same list produce the same groups, the same per-group data and the same
order. -/
theorem packageGrouping_deterministic (sortImpl : List PkgGroup → List PkgGroup)
    (l : List VulnItem) :
    packageGroups l = packageGroups l ∧
    sortedPackages sortImpl l = sortedPackages sortImpl l ∧
    (sortedPackages sortImpl l).map
        (fun g => (g.package, g.count, g.cves, g.hosts)) =
      (sortedPackages sortImpl l).map
        (fun g => (g.package, g.count, g.cves, g.hosts)) :=
  ⟨rfl, rfl, rfl⟩

/-- C1: counterexample evidence against the claimed sort order.  On the
concrete High and Medium groups of `[cx1a, cx1b]` the spec's order
(`specPkgLe`) puts High first, but the code's comparator answers `1`
("put the other group first") for BOTH argument orders — it is not a
consistent comparator and directly contradicts the claimed
severity-descending order whenever the sort consults it.  ECMAScript
therefore leaves the result order of `Array.prototype.sort`
implementation-defined (any permutation is a conformant result), and the
exhibited conformant result below violates the claimed order on this
input; no engine is required to produce the claimed order. -/
theorem sortedPackages_not_spec_sorted :
    specPkgLe (newGroup cx1a) (newGroup cx1b) = true ∧
    specPkgLe (newGroup cx1b) (newGroup cx1a) = false ∧
    pkgCompare (newGroup cx1a) (newGroup cx1b) = 1 ∧
    pkgCompare (newGroup cx1b) (newGroup cx1a) = 1 ∧
    (sortedPackages List.reverse [cx1a, cx1b]).Perm
      (packageGroups [cx1a, cx1b]) ∧
    sortedByB specPkgLe (sortedPackages List.reverse [cx1a, cx1b]) = false := by
  refine ⟨by decide, by decide, by decide, by decide, ?_, by decide⟩
  exact List.reverse_perm (packageGroups [cx1a, cx1b])

/-- The keystream has the requested length. -/
theorem length_keystream (key : List Nat) (nonce n : Nat) :
    (keystream key nonce n).length = n := by
  simp [keystream]

/-- XORing twice with the same equal-length keystream is the identity. -/
theorem zipWith_xor_cancel :
    ∀ (s ks : List Nat), ks.length = s.length →
      List.zipWith (fun a b => a ^^^ b)
        (List.zipWith (fun a b => a ^^^ b) s ks) ks = s := by
  intro s
  induction s with
  | nil => intro ks _; simp
  | cons a s ih =>
    intro ks h
    cases ks with
    | nil => simp at h
    | cons k ks =>
      simp only [List.zipWith_cons_cons]
      rw [Nat.xor_cancel_right, ih ks (by simpa using h)]

/-- The ciphertext body has the secret's length. -/
theorem length_encrypt_body (s key : List Nat) (nonce : Nat) :
    (encrypt s key nonce).body.length = s.length := by
  simp [encrypt, List.length_zipWith, length_keystream]

/-- C7: round-trip and fail-closed behaviour of the vault model —
decrypting an encryption with the same key and nonce returns the secret;
decrypting with a different key, a different nonce, or a tampered
ciphertext body always fails with `CryptoError.authFailure`; and any
successful decryption returns exactly the plaintext whose encryption under
that key and nonce is the given ciphertext, never an incorrect one. -/
theorem vault_roundtrip_auth (s key key2 : List Nat) (nonce nonce2 : Nat)
    (b : List Nat) :
    decrypt (encrypt s key nonce) nonce key = Except.ok s ∧
    (key2 ≠ key → decrypt (encrypt s key nonce) nonce key2 =
      Except.error CryptoError.authFailure) ∧
    (nonce2 ≠ nonce → decrypt (encrypt s key nonce) nonce2 key =
      Except.error CryptoError.authFailure) ∧
    (b ≠ (encrypt s key nonce).body →
      decrypt { body := b, tag := (encrypt s key nonce).tag } nonce key =
        Except.error CryptoError.authFailure) ∧
    (∀ ct s2, decrypt ct nonce key = Except.ok s2 → ct = encrypt s2 key nonce) := by
  refine ⟨?_, ?_, ?_, ?_, ?_⟩
  · show (if _ = _ then _ else _) = _
    have htag : (encrypt s key nonce).tag =
        (key, nonce, (encrypt s key nonce).body) := rfl
    rw [if_pos htag]
    congr 1
    rw [length_encrypt_body]
    exact zipWith_xor_cancel s _ (length_keystream key nonce s.length)
  · intro hk
    show (if _ = _ then _ else _) = _
    rw [if_neg]
    intro h
    exact hk (congrArg (fun t => t.1) h).symm
  · intro hn
    show (if _ = _ then _ else _) = _
    rw [if_neg]
    intro h
    exact hn (congrArg (fun t => t.2.1) h).symm
  · intro hb
    show (if _ = _ then _ else _) = _
    rw [if_neg]
    intro h
    exact hb (congrArg (fun t => t.2.2) h).symm
  · intro ct s2 h
    unfold decrypt at h
    split at h
    · rename_i hc
      obtain ⟨body, tag⟩ := ct
      simp only [Except.ok.injEq] at h
      simp only at hc
      have hks : (keystream key nonce body.length).length = body.length :=
        length_keystream key nonce body.length
      have hlen : s2.length = body.length := by
        rw [← h]
        simp [List.length_zipWith, hks]
      have hbody : (encrypt s2 key nonce).body = body := by
        simp only [encrypt]
        rw [hlen]
        rw [← h]
        exact zipWith_xor_cancel body _ hks
      have : encrypt s2 key nonce =
          { body := body, tag := (key, nonce, body) } := by
        simp only [encrypt] at hbody ⊢
        rw [hbody]
      rw [this, hc]
    · exact absurd h (by simp)

/-- Witness for C7 at a concrete secret, key, nonce, wrong key, wrong
nonce and tampered body. -/
theorem vault_roundtrip_auth_witness :
    decrypt (encrypt [1, 2, 3] [7] 5) 5 [7] = Except.ok [1, 2, 3] ∧
    decrypt (encrypt [1, 2, 3] [7] 5) 5 [8] =
      Except.error CryptoError.authFailure ∧
    decrypt (encrypt [1, 2, 3] [7] 5) 6 [7] =
      Except.error CryptoError.authFailure ∧
    decrypt { body := [], tag := (encrypt [1, 2, 3] [7] 5).tag } 5 [7] =
      Except.error CryptoError.authFailure := by
  have h := vault_roundtrip_auth [1, 2, 3] [7] [8] 5 6 []
  exact ⟨h.1, h.2.1 (by decide), h.2.2.1 (by decide), h.2.2.2.1 (by decide)⟩

/-- C8: the unused-entitlement percentage is 0 when the total is 0 (no
division-by-zero fault), is never negative, never exceeds 100 when the
unused count is at most the total, and otherwise equals
`unused * 100 / total`. -/
theorem entitlementsUnusedPct_spec (unused total : Nat) :
    entitlementsUnusedPct unused 0 = 0 ∧
    0 ≤ entitlementsUnusedPct unused total ∧
    (unused ≤ total → entitlementsUnusedPct unused total ≤ 100) ∧
    (total ≠ 0 →
      entitlementsUnusedPct unused total = (unused : ℚ) * 100 / (total : ℚ)) := by
  refine ⟨by simp [entitlementsUnusedPct], ?_, ?_, ?_⟩
  · unfold entitlementsUnusedPct
    split
    · norm_num
    · positivity
  · intro hut
    unfold entitlementsUnusedPct
    split
    · norm_num
    · rename_i ht
      have ht' : (0 : ℚ) < (total : ℚ) := by
        exact_mod_cast Nat.pos_of_ne_zero ht
      rw [div_le_iff₀ ht']
      have hc : (unused : ℚ) ≤ (total : ℚ) := by exact_mod_cast hut
      nlinarith
  · intro ht
    simp [entitlementsUnusedPct, ht]

/-- Witness for C8 at `unused = 1`, `total = 2` (and total 0). -/
theorem entitlementsUnusedPct_spec_witness :
    entitlementsUnusedPct 1 0 = 0 ∧ 0 ≤ entitlementsUnusedPct 1 2 ∧
    entitlementsUnusedPct 1 2 ≤ 100 :=
  ⟨(entitlementsUnusedPct_spec 1 0).1, (entitlementsUnusedPct_spec 1 2).2.1,
    (entitlementsUnusedPct_spec 1 2).2.2.1 (by norm_num)⟩

/-- Doubling the quotes of a string rewrites each character independently:
a double quote becomes two, anything else is kept, nothing else changes. -/
theorem doubleQuotes_data (s : String) :
    (doubleQuotes s).data =
      s.data.flatMap (fun c => if c = '"' then ['"', '"'] else [c]) := by
  show (s.data.foldr (fun c acc => if c = '"' then '"' :: '"' :: acc else c :: acc) []) = _
  induction s.data with
  | nil => rfl
  | cons c cs ih =>
    by_cases hc : c = '"' <;> simp [hc, ih]

/-- C9: `escapeCsvField` is total; it returns `""` for `null`/`undefined`,
returns any string without comma, double quote or newline unchanged, and
wraps any other string in double quotes with each embedded double quote
doubled (and applies no other transformation). -/
theorem escapeCsvField_spec :
    escapeCsvField none = "" ∧
    ∀ s : String,
      (needsQuoting s = false → escapeCsvField (some s) = s) ∧
      (needsQuoting s = true →
        escapeCsvField (some s) = "\"" ++ doubleQuotes s ++ "\"") ∧
      (needsQuoting s = true ↔ (',' ∈ s.data ∨ '"' ∈ s.data ∨ '\n' ∈ s.data)) ∧
      (doubleQuotes s).data =
        s.data.flatMap (fun c => if c = '"' then ['"', '"'] else [c]) := by
  refine ⟨rfl, fun s => ⟨?_, ?_, ?_, doubleQuotes_data s⟩⟩
  · intro h
    simp [escapeCsvField, h]
  · intro h
    simp [escapeCsvField, h]
  · simp [needsQuoting, containsChar]
    tauto

/-- Witness for C9 at a quoted and an unquoted concrete field. -/
theorem escapeCsvField_spec_witness :
    escapeCsvField (some "a,b") = "\"a,b\"" ∧ escapeCsvField (some "ab") = "ab" := by
  refine ⟨?_, (escapeCsvField_spec.2 "ab").1 (by decide)⟩
  have h := (escapeCsvField_spec.2 "a,b").2.1 (by decide)
  rw [h]
  decide

/-- C10: `downloadCsv` produces no output exactly when the data array is
empty; otherwise the produced CSV text is the header record followed by
one record per input row in input order (escaped fields joined by commas),
the columns being the explicit list or, when absent, the keys of the first
row. -/
theorem downloadCsv_spec (data : List CsvRow) (columns : Option (List CsvColumn)) :
    (downloadCsv data columns = none ↔ data = []) ∧
    ∀ d rest, data = d :: rest →
      downloadCsv data columns =
        some (String.intercalate "\n"
          (csvHeader (columns.getD (defaultColumns d)) ::
            data.map (csvRecord (columns.getD (defaultColumns d))))) ∧
      (data.map (csvRecord (columns.getD (defaultColumns d)))).length =
        data.length := by
  constructor
  · cases data <;> simp [downloadCsv]
  · rintro d rest rfl
    exact ⟨rfl, by simp⟩

/-- Witness for C10 at a one-row table with default columns and at the
empty table. -/
theorem downloadCsv_spec_witness :
    downloadCsv [[("a", some "1")]] none = some "a\n1" ∧
    downloadCsv ([] : List CsvRow) none = none := by
  refine ⟨?_, (downloadCsv_spec ([] : List CsvRow) none).1.mpr rfl⟩
  have h := ((downloadCsv_spec [[("a", some "1")]] none).2
    [("a", some "1")] [] rfl).1
  rw [h]
  decide

/-- C1 (amended): under the implementation-defined sort, the displayed
groups are always a permutation of the first-encounter package groups
(group contents are unaffected by the sort), and the comparator itself
enforces only this much order: whenever consulted it puts a Critical group
strictly before a non-Critical one, it compares groups of equal severity
by affected-host count (descending), it answers `1` for both orders of two
distinct non-Critical severities (it is inconsistent, so no full severity
order results), and it reads nothing but severity and host count — in
particular no package-name tiebreak exists anywhere in the code. -/
theorem sortedPackages_order_spec (sortImpl : List PkgGroup → List PkgGroup)
    (hperm : ∀ gs : List PkgGroup, (sortImpl gs).Perm gs) (l : List VulnItem) :
    (sortedPackages sortImpl l).Perm (packageGroups l) ∧
    (∀ a b : PkgGroup, a.severity = "Critical" → b.severity ≠ "Critical" →
      pkgCompare a b < 0 ∧ 0 < pkgCompare b a) ∧
    (∀ a b : PkgGroup, a.severity = b.severity →
      pkgCompare a b = (b.hosts.length : Int) - (a.hosts.length : Int)) ∧
    (∀ a b : PkgGroup, a.severity ≠ b.severity → a.severity ≠ "Critical" →
      pkgCompare a b = 1) ∧
    (∀ a b a2 b2 : PkgGroup, a.severity = a2.severity →
      b.severity = b2.severity → a.hosts.length = a2.hosts.length →
      b.hosts.length = b2.hosts.length → pkgCompare a b = pkgCompare a2 b2) := by
  refine ⟨hperm (packageGroups l), ?_, ?_, ?_, ?_⟩
  · intro a b ha hb
    constructor
    · unfold pkgCompare
      rw [if_pos (fun h : a.severity = b.severity => hb (h.symm.trans ha)),
        if_pos ha]
      norm_num
    · unfold pkgCompare
      rw [if_pos (fun h : b.severity = a.severity => hb (h.trans ha)),
        if_neg (fun h : b.severity = "Critical" => hb h)]
      norm_num
  · intro a b hab
    unfold pkgCompare
    rw [if_neg (by simp [hab])]
  · intro a b hab ha
    unfold pkgCompare
    rw [if_pos hab, if_neg ha]
  · intro a b a2 b2 hsa hsb hha hhb
    unfold pkgCompare
    rw [hsa, hsb, hha, hhb]

/-- Witness for C1 (amended): the identity function is a conformant sort
result (a permutation), instantiated at a concrete finding list; the
comparator facts instantiated at a concrete Critical and a concrete High
group. -/
theorem sortedPackages_order_spec_witness :
    (sortedPackages id [cx1a, cx1b]).Perm (packageGroups [cx1a, cx1b]) ∧
    pkgCompare (newGroup cx3a) (newGroup cx1a) < 0 ∧
    0 < pkgCompare (newGroup cx1a) (newGroup cx3a) := by
  have h := sortedPackages_order_spec id (fun gs => List.Perm.refl gs)
    [cx1a, cx1b]
  have h2 := h.2.1 (newGroup cx3a) (newGroup cx1a) rfl (by decide)
  exact ⟨h.1, h2.1, h2.2⟩


/-- Updating a group keeps its package key. -/
theorem updateGroup_package (g : PkgGroup) (i : VulnItem) :
    (updateGroup g i).package = g.package := rfl

/-- A fresh group is keyed by the item's grouping key. -/
theorem newGroup_package (i : VulnItem) : (newGroup i).package = pkgOf i := rfl

/-- Effect of one grouping step on a lookup: the looked-up package is
updated (or created) exactly when the item belongs to it. -/
theorem findGroup_addItem (gs : List PkgGroup) (i : VulnItem) (p : String) :
    findGroup (addItem gs i) p =
      if pkgOf i = p then
        match findGroup gs p with
        | some g => some (updateGroup g i)
        | none => some (newGroup i)
      else findGroup gs p := by
  induction gs with
  | nil =>
    by_cases hp : pkgOf i = p <;>
      simp [addItem, findGroup, newGroup_package, hp]
  | cons g gs ih =>
    by_cases h1 : g.package = pkgOf i
    · by_cases hp : pkgOf i = p
      · simp [addItem, findGroup, updateGroup_package, h1, hp, h1.trans hp]
      · have h2 : ¬ g.package = p := fun hc => hp (h1.symm.trans hc)
        simp [addItem, findGroup, updateGroup_package, h1, hp, h2]
    · by_cases h2 : g.package = p
      · have hp : ¬ pkgOf i = p := fun hc => h1 (h2.trans hc.symm)
        have hp2 : ¬ p = pkgOf i := fun hc => hp hc.symm
        simp [addItem, findGroup, h1, h2, hp, hp2]
      · simp [addItem, findGroup, h1, h2, ih]

/-- Lookup after folding the grouping loop over a list: the accumulated
group for a package is its prior group updated by, or freshly built from,
the package's members in the list. -/
theorem findGroup_foldl (l : List VulnItem) :
    ∀ (gs : List PkgGroup) (p : String),
      findGroup (l.foldl addItem gs) p =
        match findGroup gs p with
        | some g => some ((membersOf l p).foldl updateGroup g)
        | none => groupFor (membersOf l p) := by
  induction l with
  | nil =>
    intro gs p
    cases h : findGroup gs p <;> simp [membersOf, groupFor, h]
  | cons i l ih =>
    intro gs p
    rw [List.foldl_cons, ih (addItem gs i) p, findGroup_addItem]
    by_cases hp : pkgOf i = p
    · have hm : membersOf (i :: l) p = i :: membersOf l p := by
        simp [membersOf, List.filter_cons, hp]
      rw [if_pos hp, hm]
      cases h : findGroup gs p with
      | none => simp [groupFor]
      | some g => simp
    · have hm : membersOf (i :: l) p = membersOf l p := by
        simp [membersOf, List.filter_cons, hp]
      rw [if_neg hp, hm]

/-- The group reported for a package is exactly the one built from that
package's members of the input list. -/
theorem findGroup_packageGroups (l : List VulnItem) (p : String) :
    findGroup (packageGroups l) p = groupFor (membersOf l p) := by
  have h := findGroup_foldl l [] p
  simpa [packageGroups, findGroup] using h

/-- Membership after a set-insertion step. -/
theorem mem_setAdd (l : List String) (s x : String) :
    x ∈ setAdd l s ↔ x ∈ l ∨ x = s := by
  unfold setAdd
  split
  · rename_i h
    constructor
    · exact Or.inl
    · rintro (hx | rfl)
      exacts [hx, h]
  · simp

/-- A set-insertion step preserves freedom from duplicates. -/
theorem nodup_setAdd (l : List String) (s : String) (h : l.Nodup) :
    (setAdd l s).Nodup := by
  unfold setAdd
  split
  · exact h
  · rename_i hs
    simp [List.nodup_append, h, hs]

/-- Membership in a fold of set-insertions. -/
theorem mem_foldl_setAdd (xs : List String) :
    ∀ (acc : List String) (x : String),
      x ∈ xs.foldl setAdd acc ↔ x ∈ acc ∨ x ∈ xs := by
  induction xs with
  | nil =>
    intro acc x
    simp
  | cons a xs ih =>
    intro acc x
    rw [List.foldl_cons, ih, mem_setAdd]
    simp
    tauto

/-- A fold of set-insertions over any start set without duplicates stays
duplicate-free. -/
theorem nodup_foldl_setAdd (xs : List String) :
    ∀ acc : List String, acc.Nodup → (xs.foldl setAdd acc).Nodup := by
  induction xs with
  | nil =>
    intro acc h
    simpa using h
  | cons a xs ih =>
    intro acc h
    exact ih _ (nodup_setAdd acc a h)

/-- The size of the set built by inserting every element of a list is the
number of distinct elements of the list. -/
theorem length_foldl_setAdd (xs : List String) :
    (xs.foldl setAdd []).length = xs.toFinset.card := by
  have hn : (xs.foldl setAdd []).Nodup := nodup_foldl_setAdd xs [] List.nodup_nil
  have hs : (xs.foldl setAdd []).toFinset = xs.toFinset := by
    ext x
    simp [mem_foldl_setAdd]
  rw [← List.toFinset_card_of_nodup hn, hs]

/-- A truthiness-guarded insertion fold is the plain insertion fold over
the values that pass the truthiness test. -/
theorem foldl_addTruthy_eq (os : List (Option String)) :
    ∀ acc : List String,
      os.foldl addTruthy acc = (os.filterMap truthyStr).foldl setAdd acc := by
  induction os with
  | nil =>
    intro acc
    rfl
  | cons o os ih =>
    intro acc
    rw [List.foldl_cons, ih]
    cases o with
    | none => simp [List.filterMap_cons, truthyStr, addTruthy]
    | some s =>
      by_cases hs : s = "" <;>
        simp [List.filterMap_cons, truthyStr, addTruthy, hs]

/-- The CVE set of a group after the member fold. -/
theorem cves_foldl_updateGroup (rest : List VulnItem) :
    ∀ g : PkgGroup, (rest.foldl updateGroup g).cves =
      (rest.map VulnItem.vuln_id).foldl setAdd g.cves := by
  induction rest with
  | nil =>
    intro g
    rfl
  | cons i rest ih =>
    intro g
    rw [List.foldl_cons, ih, List.map_cons, List.foldl_cons]
    rfl

/-- The host set of a group after the member fold. -/
theorem hosts_foldl_updateGroup (rest : List VulnItem) :
    ∀ g : PkgGroup, (rest.foldl updateGroup g).hosts =
      (rest.map VulnItem.hostname).foldl addTruthy g.hosts := by
  induction rest with
  | nil =>
    intro g
    rfl
  | cons i rest ih =>
    intro g
    rw [List.foldl_cons, ih, List.map_cons, List.foldl_cons]
    rfl

/-- The fix-version set of a group after the member fold. -/
theorem fixVersions_foldl_updateGroup (rest : List VulnItem) :
    ∀ g : PkgGroup, (rest.foldl updateGroup g).fix_versions =
      (rest.map VulnItem.fix_version).foldl addTruthy g.fix_versions := by
  induction rest with
  | nil =>
    intro g
    rfl
  | cons i rest ih =>
    intro g
    rw [List.foldl_cons, ih, List.map_cons, List.foldl_cons]
    rfl

/-- Inserting into the empty set yields the singleton. -/
theorem setAdd_nil (s : String) : setAdd [] s = [s] := by
  simp [setAdd]

/-- A package has a group exactly when it has a member. -/
theorem isSome_groupFor (ms : List VulnItem) :
    (groupFor ms).isSome = true ↔ ms ≠ [] := by
  cases ms <;> simp [groupFor]

/-- C6: within each package group the CVE, host and fix-version sets are
duplicate-free; the CVE count is the number of distinct vuln ids among the
group's members and the affected-host count is the number of distinct
non-empty hostnames among them; and a package has a group over the
exposure-filtered findings (is classified internet-exposed) iff at least
one of its records is exposed. -/
theorem packageGroup_dedup_spec (l : List VulnItem) (p : String) :
    (∀ g, findGroup (packageGroups l) p = some g →
      g.cves.Nodup ∧ g.hosts.Nodup ∧ g.fix_versions.Nodup ∧
      g.cves.length = ((membersOf l p).map VulnItem.vuln_id).toFinset.card ∧
      g.hosts.length =
        (((membersOf l p).map VulnItem.hostname).filterMap
          truthyStr).toFinset.card) ∧
    ((findGroup (packageGroups (l.filter isExposed)) p).isSome = true ↔
      ∃ i ∈ l, isExposed i = true ∧ pkgOf i = p) := by
  constructor
  · intro g hg
    rw [findGroup_packageGroups] at hg
    cases hm : membersOf l p with
    | nil =>
      rw [hm] at hg
      simp [groupFor] at hg
    | cons m rest =>
      rw [hm] at hg
      simp only [groupFor, Option.some.injEq] at hg
      subst hg
      have hc : (rest.foldl updateGroup (newGroup m)).cves =
          ((m :: rest).map VulnItem.vuln_id).foldl setAdd [] := by
        rw [cves_foldl_updateGroup, List.map_cons, List.foldl_cons, setAdd_nil]
        rfl
      have hh : (rest.foldl updateGroup (newGroup m)).hosts =
          (((m :: rest).map VulnItem.hostname).filterMap truthyStr).foldl
            setAdd [] := by
        rw [hosts_foldl_updateGroup, ← foldl_addTruthy_eq, List.map_cons,
          List.foldl_cons]
        rfl
      have hf : (rest.foldl updateGroup (newGroup m)).fix_versions =
          (((m :: rest).map VulnItem.fix_version).filterMap truthyStr).foldl
            setAdd [] := by
        rw [fixVersions_foldl_updateGroup, ← foldl_addTruthy_eq, List.map_cons,
          List.foldl_cons]
        rfl
      refine ⟨?_, ?_, ?_, ?_, ?_⟩
      · rw [hc]
        exact nodup_foldl_setAdd _ [] List.nodup_nil
      · rw [hh]
        exact nodup_foldl_setAdd _ [] List.nodup_nil
      · rw [hf]
        exact nodup_foldl_setAdd _ [] List.nodup_nil
      · rw [hc, length_foldl_setAdd]
      · rw [hh, length_foldl_setAdd]
  · rw [findGroup_packageGroups, isSome_groupFor]
    constructor
    · intro h
      obtain ⟨i, hi⟩ := List.exists_mem_of_ne_nil _ h
      rcases List.mem_filter.mp hi with ⟨hi2, hp⟩
      rcases List.mem_filter.mp hi2 with ⟨hil, hexp⟩
      exact ⟨i, hil, hexp, by simpa using hp⟩
    · rintro ⟨i, hil, hexp, hp⟩
      intro hnil
      have hmem : i ∈ membersOf (l.filter isExposed) p :=
        List.mem_filter.mpr ⟨List.mem_filter.mpr ⟨hil, hexp⟩, by simpa using hp⟩
      rw [hnil] at hmem
      simp at hmem

/-- Witness for C6 at the spec's worked example: two records for
`CVE-2024-1111` on `openssl`, one exposed and one internal, on two hosts —
the group reports one CVE and two affected hosts, and `openssl` still has
a group when only exposed findings are kept. -/
theorem packageGroup_dedup_spec_witness :
    (∃ g, findGroup (packageGroups [w6a, w6b]) "openssl" = some g ∧
      g.cves.length = 1 ∧ g.hosts.length = 2) ∧
    (findGroup (packageGroups ([w6a, w6b].filter isExposed))
      "openssl").isSome = true := by
  have h := packageGroup_dedup_spec [w6a, w6b] "openssl"
  constructor
  · have hs : (findGroup (packageGroups [w6a, w6b]) "openssl").isSome = true := by
      decide
    obtain ⟨g, hg⟩ := Option.isSome_iff_exists.mp hs
    have hcounts := h.1 g hg
    refine ⟨g, hg, ?_, ?_⟩
    · rw [hcounts.2.2.2.1]
      decide
    · rw [hcounts.2.2.2.2]
      decide
  · exact h.2.mpr ⟨w6a, by simp, by decide, by decide⟩
